import Mathlib

/-!
Shallow embedding of the LolzLiveBumper scheduling core
(`src/database.py` and `src/bump_service.py`).

Timestamps are unbounded integers (Python ints).  The SQLite `threads`
table is a list of rows, `bump_history` an append-only list.  SQL `UPDATE
... WHERE thread_id = ?` is a map over the rows touching exactly the rows
whose `thread_id` matches; `INSERT` appends.
-/

namespace LolzBumper

/-- One row of the `threads` table (schema from `Database._init_db`,
src/database.py lines 32-45).  `title` and `last_error` are nullable TEXT
columns, modelled as `Option String`; SQL defaults are applied at insert. -/
structure ThreadRow where
  thread_id : Nat
  title : Option String
  last_bump_time : Int
  next_bump_time : Int
  bump_count : Nat
  last_error : Option String
  consecutive_failures : Nat
  is_active : Bool
  created_at : Int
  updated_at : Int
deriving Repr, DecidableEq

/-- One row of the append-only `bump_history` table. -/
structure HistoryRow where
  thread_id : Nat
  bump_time : Int
  success : Bool
  message : String
deriving Repr, DecidableEq

/-- The persistent store: the `threads` table and the `bump_history` table. -/
structure DBState where
  threads : List ThreadRow
  history : List HistoryRow
deriving Repr, DecidableEq

/-- `Database.get_thread`: `SELECT * FROM threads WHERE thread_id = ?`,
first matching row or absent. -/
def get_thread (db : DBState) (tid : Nat) : Option ThreadRow :=
  db.threads.find? (fun r => r.thread_id = tid)

/-- The keyword arguments accepted by `Database.upsert_thread` as actually
used by the service (`title`, `next_bump_time`, `last_error`,
`consecutive_failures`); `none` means the field was not passed. -/
structure UpsertFields where
  title : Option String := none
  next_bump_time : Option Int := none
  last_error : Option String := none
  consecutive_failures : Option Nat := none
deriving Repr, DecidableEq

/-- The UPDATE branch of `upsert_thread`: sets exactly the provided fields
plus `updated_at` (src/database.py lines 79-90). -/
def applyUpdate (f : UpsertFields) (now : Int) (r : ThreadRow) : ThreadRow :=
  { r with
    title := match f.title with | some t => some t | none => r.title
    next_bump_time := match f.next_bump_time with | some v => v | none => r.next_bump_time
    last_error := match f.last_error with | some e => some e | none => r.last_error
    consecutive_failures := match f.consecutive_failures with | some c => c | none => r.consecutive_failures
    updated_at := now }

/-- The INSERT branch of `upsert_thread`: only the provided fields plus
`thread_id`, `created_at`, `updated_at` are inserted; every other column
takes its SQL schema default (`last_bump_time = 0`, `next_bump_time = 0`,
`bump_count = 0`, `last_error = NULL`, `consecutive_failures = 0`,
`is_active = 1`, `title = NULL`). -/
def insertRow (tid : Nat) (f : UpsertFields) (now : Int) : ThreadRow :=
  { thread_id := tid
    title := f.title
    last_bump_time := 0
    next_bump_time := f.next_bump_time.getD 0
    bump_count := 0
    last_error := f.last_error
    consecutive_failures := f.consecutive_failures.getD 0
    is_active := true
    created_at := now
    updated_at := now }

/-- `Database.upsert_thread` (src/database.py lines 72-99). -/
def upsert_thread (db : DBState) (now : Int) (tid : Nat) (f : UpsertFields) : DBState :=
  match get_thread db tid with
  | some _ =>
      { db with threads := db.threads.map (fun r => if r.thread_id = tid then applyUpdate f now r else r) }
  | none =>
      { db with threads := db.threads ++ [insertRow tid f now] }

/-- The UPDATE statement inside `record_bump_success`
(src/database.py lines 124-133). -/
def successUpdate (now : Int) (tid : Nat) (next_bump_time : Int) (db : DBState) : DBState :=
  { db with threads := db.threads.map (fun r =>
      if r.thread_id = tid then
        { r with
          last_bump_time := now
          next_bump_time := next_bump_time
          bump_count := r.bump_count + 1
          last_error := none
          consecutive_failures := 0
          updated_at := now }
      else r) }

/-- The UPDATE statement inside `record_bump_failure`
(src/database.py lines 146-153). -/
def failureUpdate (now : Int) (tid : Nat) (error : String) (next_retry_time : Int) (db : DBState) : DBState :=
  { db with threads := db.threads.map (fun r =>
      if r.thread_id = tid then
        { r with
          next_bump_time := next_retry_time
          last_error := some error
          consecutive_failures := r.consecutive_failures + 1
          updated_at := now }
      else r) }

/-- An `INSERT INTO bump_history` statement. -/
def insertHistory (tid : Nat) (now : Int) (success : Bool) (message : String) (db : DBState) : DBState :=
  { db with history := db.history ++ [⟨tid, now, success, message⟩] }

/-- `Database.record_bump_success` (src/database.py lines 118-138):
schedule update then history insert, in one connection. -/
def record_bump_success (db : DBState) (now : Int) (tid : Nat) (message : String) (next_bump_time : Int) : DBState :=
  insertHistory tid now true message (successUpdate now tid next_bump_time db)

/-- `Database.record_bump_failure` (src/database.py lines 140-158):
schedule update then history insert, in one connection. -/
def record_bump_failure (db : DBState) (now : Int) (tid : Nat) (error : String) (next_retry_time : Int) : DBState :=
  insertHistory tid now false error (failureUpdate now tid error next_retry_time db)

/-- `Database.activate_thread`: `is_active = 1`, `consecutive_failures = 0`,
stamp `updated_at`. -/
def activate_thread (db : DBState) (now : Int) (tid : Nat) : DBState :=
  { db with threads := db.threads.map (fun r =>
      if r.thread_id = tid then
        { r with is_active := true, consecutive_failures := 0, updated_at := now }
      else r) }

/-- `Database.deactivate_thread`: `is_active = 0`, stamp `updated_at`. -/
def deactivate_thread (db : DBState) (now : Int) (tid : Nat) : DBState :=
  { db with threads := db.threads.map (fun r =>
      if r.thread_id = tid then
        { r with is_active := false, updated_at := now }
      else r) }

/-!
Transaction model of `Database._get_connection` (src/database.py lines
14-26): the statements of the `with` block run in order on the connection;
if all succeed the connection commits, and if any raises the connection
rolls back, so the database is exactly as before the call.  A statement is
a state transformer that may fail (`none` = the statement raised).
-/

/-- One SQL statement inside a connection block; `none` models a raised
exception at that statement. -/
def Stmt : Type := DBState → Option DBState

/-- Run the statements of a `with self._get_connection()` block in order
on the working state, stopping at the first failure. -/
def applyStmts : List Stmt → DBState → Option DBState
  | [], db => some db
  | f :: fs, db =>
      match f db with
      | some db1 => applyStmts fs db1
      | none => none

/-- `Database._get_connection` semantics: commit the whole block on
success, roll back to the pre-call state on any exception.  The `Bool`
records whether the block committed. -/
def withConnection (stmts : List Stmt) (db : DBState) : DBState × Bool :=
  match applyStmts stmts db with
  | some db1 => (db1, true)
  | none => (db, false)

/-- The two statements of `record_bump_success` as a transaction. -/
def successStmts (now : Int) (tid : Nat) (message : String) (next_bump_time : Int) : List Stmt :=
  [fun db => some (successUpdate now tid next_bump_time db),
   fun db => some (insertHistory tid now true message db)]

/-- The two statements of `record_bump_failure` as a transaction. -/
def failureStmts (now : Int) (tid : Nat) (error : String) (next_retry_time : Int) : List Stmt :=
  [fun db => some (failureUpdate now tid error next_retry_time db),
   fun db => some (insertHistory tid now false error db)]

/-- `record_bump_success` with a failure injected between the schedule
update and the history insert (the history insert raises). -/
def successStmtsAborted (now : Int) (tid : Nat) (next_bump_time : Int) : List Stmt :=
  [fun db => some (successUpdate now tid next_bump_time db),
   fun _ => none]

/-- `record_bump_failure` with a failure injected between the schedule
update and the history insert (the history insert raises). -/
def failureStmtsAborted (now : Int) (tid : Nat) (error : String) (next_retry_time : Int) : List Stmt :=
  [fun db => some (failureUpdate now tid error next_retry_time db),
   fun _ => none]

/-!
The service layer (`src/bump_service.py`).  Configuration values come from
`config.py`, which is not part of the two source files; they are carried as
parameters in a `Config` record (names as imported at src/bump_service.py
lines 14-19).  Wall-clock reads (`time.time()`), the random jitter
(`random.randint(30, 300)`) and the HTTP responses are inputs of the pure
model.
-/

/-- Modelled from the spec: the tunables imported from the missing
`config.py` (`BUMP_INTERVAL` is the spec's BASE_INTERVAL, `RETRY_DELAYS`
the backoff table, `MAX_CONSECUTIVE_FAILURES` the configured maximum);
`hasBot` records whether a Telegram bot is configured (`bot` is not None),
which gates every alert. -/
structure Config where
  BUMP_INTERVAL : Int
  RETRY_DELAYS : List Int
  MAX_CONSECUTIVE_FAILURES : Nat
  hasBot : Bool
deriving Repr, DecidableEq

/-- The distinguishable HTTP responses of the bump endpoint as classified
by `AsyncBumpService._bump_thread` (src/bump_service.py lines 98-134):
200 with status ok, 403 with an errors list (cooldown), 429, 401, any
other status, or a raised exception. -/
inductive ApiResponse where
  | ok (message : String)
  | cooldown (errMsg : String)
  | rateLimited
  | invalidToken
  | otherError (status : Nat)
  | exn (msg : String)
deriving Repr, DecidableEq

/-- The `result` dictionary built by `_bump_thread`. -/
structure BumpResult where
  success : Bool
  message : String
  next_time : Option Int
  is_cooldown : Bool
deriving Repr, DecidableEq

/-- Mutable service state: the store, the `running` flag, and the alerts
sent to the Telegram chat (append-only trace). -/
structure ServiceState where
  db : DBState
  running : Bool
  alerts : List String
deriving Repr, DecidableEq

/-- `AsyncBumpService._bump_thread` (src/bump_service.py lines 93-136).
`now` is `int(time.time())`, `jitter` the value of
`random.randint(30, 300)`, and `infoNext` the `next_available_time`
reported by the follow-up `_get_thread_info` call in the cooldown branch
(`none` when the fetch failed or the field was absent).  Python truthiness
on the timestamp is explicit: a reported `0` is ignored. -/
def bump_thread (cfg : Config) (now : Int) (jitter : Int) (infoNext : Option Int)
    (resp : ApiResponse) (s : ServiceState) : BumpResult × ServiceState :=
  match resp with
  | .ok msg =>
      ({ success := true, message := msg,
         next_time := some (now + cfg.BUMP_INTERVAL + jitter), is_cooldown := false }, s)
  | .cooldown errMsg =>
      let fromInfo : Option Int :=
        match infoNext with
        | some t => if t ≠ 0 then some t else none
        | none => none
      let nt : Int :=
        match fromInfo with
        | some t => t
        | none => now + cfg.BUMP_INTERVAL
      ({ success := false, message := errMsg, next_time := some nt, is_cooldown := true }, s)
  | .rateLimited =>
      ({ success := false, message := "Rate Limit",
         next_time := some (now + 120), is_cooldown := false }, s)
  | .invalidToken =>
      ({ success := false, message := "", next_time := none, is_cooldown := false },
       { s with running := false,
                alerts := if cfg.hasBot then s.alerts ++ ["CRITICAL: Invalid Token!"] else s.alerts })
  | .otherError status =>
      ({ success := false, message := "Error " ++ toString status,
         next_time := none, is_cooldown := false }, s)
  | .exn m =>
      ({ success := false, message := m, next_time := none, is_cooldown := false }, s)

/-- `AsyncBumpService.process_thread` (src/bump_service.py lines 138-174):
dispatch one thread row and apply the outcome to the store. -/
def process_thread (cfg : Config) (now : Int) (jitter : Int) (infoNext : Option Int)
    (resp : ApiResponse) (thread : ThreadRow) (s : ServiceState) : BumpResult × ServiceState :=
  let tid := thread.thread_id
  let cf := thread.consecutive_failures
  let (result, s1) := bump_thread cfg now jitter infoNext resp s
  if result.success then
    (result, { s1 with db := record_bump_success s1.db now tid result.message (result.next_time.getD 0) })
  else if result.is_cooldown then
    let fields : UpsertFields :=
      { next_bump_time := result.next_time, last_error := some result.message,
        consecutive_failures := some 0 }
    (result, { s1 with db := upsert_thread s1.db now tid fields })
  else
    let cf1 := cf + 1
    if cf1 ≥ cfg.MAX_CONSECUTIVE_FAILURES then
      let fields : UpsertFields :=
        { next_bump_time := some (now + cfg.BUMP_INTERVAL),
          last_error := some ("Too many errors: " ++ result.message),
          consecutive_failures := some 0 }
      let alerts1 := if cfg.hasBot then s1.alerts ++ ["Skipped " ++ toString tid] else s1.alerts
      (result, { s1 with db := upsert_thread s1.db now tid fields, alerts := alerts1 })
    else
      let delay := cfg.RETRY_DELAYS.getD (min cf1 (cfg.RETRY_DELAYS.length - 1)) 0
      (result, { s1 with db := record_bump_failure s1.db now tid result.message (now + delay) })

/-- The per-dispatch environment of one loop iteration in `run_cycle`:
the wall clock, the drawn jitter, the info-fetch result and the HTTP
response for that thread. -/
structure Env where
  now : Int
  jitter : Int
  infoNext : Option Int
  resp : ApiResponse
deriving Repr, DecidableEq

/-- The dispatch loop of `AsyncBumpService.run_cycle` (src/bump_service.py
lines 183-187): process the ready threads in order, checking the `running`
flag before each dispatch.  Returns the final state and the ids of the
threads actually dispatched. -/
def run_cycle (cfg : Config) : List (ThreadRow × Env) → ServiceState → ServiceState × List Nat
  | [], s => (s, [])
  | (t, e) :: rest, s =>
      if s.running then
        let s1 := (process_thread cfg e.now e.jitter e.infoNext e.resp t s).2
        let (s2, ds) := run_cycle cfg rest s1
        (s2, t.thread_id :: ds)
      else
        (s, [])

/-- The thread info returned by `_get_thread_info` for a thread id:
`thread_title` (absent means the `'Unknown'` default applies) and the
`next_available_time` under `permissions.bump`. -/
structure RemoteInfo where
  title : Option String
  next_available_time : Option Int
deriving Repr, DecidableEq

/-- One iteration of the first loop of `initialize_threads`
(src/bump_service.py lines 66-85) for a configured id: insert the thread
if it is not in the snapshot, else re-activate it when the snapshot shows
it inactive.  `snapshot` is the `db_threads` list read once at the start. -/
def initConfigStep (remote : Nat → Option RemoteInfo) (now : Int)
    (snapshot : List ThreadRow) (db : DBState) (tid : Nat) : DBState :=
  if (snapshot.map (·.thread_id)).contains tid then
    match snapshot.find? (fun t => t.thread_id = tid) with
    | some t => if t.is_active then db else activate_thread db now tid
    | none => db
  else
    let title : String :=
      match remote tid with
      | some info => info.title.getD "Unknown"
      | none => "Unknown"
    let next_bump : Int :=
      match remote tid with
      | some info =>
          match info.next_available_time with
          | some t => if t ≠ 0 then t else now
          | none => now
      | none => now
    upsert_thread db now tid { title := some title, next_bump_time := some next_bump }

/-- One iteration of the second loop of `initialize_threads`
(src/bump_service.py lines 87-91): deactivate a snapshot thread that left
the configured set and was active in the snapshot. -/
def initDeactivateStep (config_ids : List Nat) (now : Int) (db : DBState) (t : ThreadRow) : DBState :=
  if ¬ config_ids.contains t.thread_id ∧ t.is_active then
    deactivate_thread db now t.thread_id
  else
    db

/-- `AsyncBumpService.initialize_threads` (src/bump_service.py lines
60-91): reconcile the configured id set against the store.  The snapshot
`db_threads` is taken once; the configured set is iterated first
(insert / re-activate), then the snapshot (deactivate departed threads). -/
def initialize_threads (config_ids : List Nat) (remote : Nat → Option RemoteInfo)
    (now : Int) (db : DBState) : DBState :=
  let snapshot := db.threads
  let db1 := config_ids.foldl (initConfigStep remote now snapshot) db
  snapshot.foldl (initDeactivateStep config_ids now) db1

/-! ### General helper lemmas -/

/-- A conditional row update touching only rows with a given id is the
identity on a table that holds no such row. -/
lemma map_if_eq_self (l : List ThreadRow) (tid : Nat) (g : ThreadRow → ThreadRow)
    (h : ∀ r ∈ l, r.thread_id ≠ tid) :
    l.map (fun r => if r.thread_id = tid then g r else r) = l := by
  induction l with
  | nil => rfl
  | cons a t ih =>
      simp only [List.map_cons]
      rw [if_neg (h a (List.mem_cons_self a t)),
        ih (fun r hr => h r (List.mem_cons_of_mem a hr))]

/-- Decompose membership in a conditional row update: a row of the result
that carries the touched id comes from a source row with that id. -/
lemma mem_condMap {l : List ThreadRow} {tid : Nat} {g : ThreadRow → ThreadRow} {r : ThreadRow}
    (hr : r ∈ l.map (fun q => if q.thread_id = tid then g q else q))
    (hid : r.thread_id = tid) :
    ∃ q ∈ l, q.thread_id = tid ∧ r = g q := by
  obtain ⟨q, hq, hrq⟩ := List.mem_map.mp hr
  by_cases h : q.thread_id = tid
  · refine ⟨q, hq, h, ?_⟩
    rw [if_pos h] at hrq
    exact hrq.symm
  · rw [if_neg h] at hrq
    rw [hrq] at h
    exact absurd hid h

/-- `getD` at an in-range index returns a member of the list. -/
lemma getD_mem_of_lt : ∀ (l : List Int) (n : Nat), n < l.length → l.getD n 0 ∈ l
  | a :: t, 0, _ => List.mem_cons_self a t
  | a :: t, n + 1, h => List.mem_cons_of_mem a (getD_mem_of_lt t n (by simpa using h))

/-- A fold whose every step fixes the accumulator fixes it overall. -/
lemma foldl_fixed {α β : Type} (f : β → α → β) (b : β) :
    ∀ (l : List α), (∀ a ∈ l, f b a = b) → l.foldl f b = b
  | [], _ => rfl
  | a :: t, h => by
      rw [List.foldl_cons, h a (List.mem_cons_self a t)]
      exact foldl_fixed f b t (fun x hx => h x (List.mem_cons_of_mem a hx))

/-! ### Claim theorems: persistent store -/

/-- Claim C5: `record_bump_success` / `record_bump_failure` run the
schedule UPDATE and the history INSERT inside one
`with self._get_connection()` block, which commits both on success and
rolls back to the pre-call state when a failure strikes between the two
statements, so the pair is all-or-nothing. -/
theorem record_outcome_atomic (db : DBState) (now : Int) (tid : Nat)
    (msg err : String) (nbt nrt : Int) :
    withConnection (successStmts now tid msg nbt) db = (record_bump_success db now tid msg nbt, true) ∧
    withConnection (failureStmts now tid err nrt) db = (record_bump_failure db now tid err nrt, true) ∧
    withConnection (successStmtsAborted now tid nbt) db = (db, false) ∧
    withConnection (failureStmtsAborted now tid err nrt) db = (db, false) :=
  ⟨rfl, rfl, rfl, rfl⟩

/-- Claim C10: recording an outcome for a thread id with no row in the
`threads` table leaves the table untouched (the UPDATE matches nothing)
yet still appends the history record, so an orphan history record can
exist. -/
theorem record_missing_row (db : DBState) (now : Int) (tid : Nat)
    (msg err : String) (nbt nrt : Int)
    (h : ∀ r ∈ db.threads, r.thread_id ≠ tid) :
    (record_bump_success db now tid msg nbt).threads = db.threads ∧
    (record_bump_success db now tid msg nbt).history = db.history ++ [⟨tid, now, true, msg⟩] ∧
    (record_bump_failure db now tid err nrt).threads = db.threads ∧
    (record_bump_failure db now tid err nrt).history = db.history ++ [⟨tid, now, false, err⟩] := by
  refine ⟨?_, rfl, ?_, rfl⟩
  · exact map_if_eq_self db.threads tid _ h
  · exact map_if_eq_self db.threads tid _ h

/-- Witness for C10 at a concrete store holding only thread 2. -/
theorem record_missing_row_witness :
    (record_bump_success ⟨[⟨2, none, 0, 0, 0, none, 0, true, 0, 0⟩], []⟩ 50 1 "ok" 99).threads
      = [⟨2, none, 0, 0, 0, none, 0, true, 0, 0⟩] :=
  (record_missing_row ⟨[⟨2, none, 0, 0, 0, none, 0, true, 0, 0⟩], []⟩ 50 1 "ok" "e" 99 77
    (by decide)).1

/-- Counterexample for claim C6: inserting a fresh thread id at call time
1000 with no fields produces a row with `next_bump_time = 0` (the SQL
schema default), not `next_bump_time = now = 1000` as claimed. -/
theorem upsert_insert_default_zero :
    (upsert_thread ⟨[], []⟩ 1000 7 {}).threads
      = [⟨7, none, 0, 0, 0, none, 0, true, 1000, 1000⟩] ∧
    (0 : Int) ≠ 1000 :=
  ⟨rfl, by decide⟩

/-- Claim C6 (amended): on a missing row, `upsert_thread` inserts a row
whose unspecified fields take the SQL schema defaults —
`next_bump_time = 0` (hence immediately eligible), `consecutive_failures
= 0`, `is_active = true` — and stamps `created_at`/`updated_at`; on an
existing row it changes exactly the given fields plus `updated_at`. -/
theorem upsert_contract (db : DBState) (now : Int) (tid : Nat) (f : UpsertFields) :
    (get_thread db tid = none →
      (upsert_thread db now tid f).threads = db.threads ++ [insertRow tid f now] ∧
      (insertRow tid f now).next_bump_time = f.next_bump_time.getD 0 ∧
      (insertRow tid f now).consecutive_failures = f.consecutive_failures.getD 0 ∧
      (insertRow tid f now).is_active = true ∧
      (insertRow tid f now).created_at = now ∧
      (insertRow tid f now).updated_at = now) ∧
    (∀ r0, get_thread db tid = some r0 →
      (upsert_thread db now tid f).threads
          = db.threads.map (fun r => if r.thread_id = tid then applyUpdate f now r else r) ∧
      ∀ r : ThreadRow,
        (applyUpdate f now r).thread_id = r.thread_id ∧
        (f.title = none → (applyUpdate f now r).title = r.title) ∧
        (f.next_bump_time = none → (applyUpdate f now r).next_bump_time = r.next_bump_time) ∧
        (f.last_error = none → (applyUpdate f now r).last_error = r.last_error) ∧
        (f.consecutive_failures = none
          → (applyUpdate f now r).consecutive_failures = r.consecutive_failures) ∧
        (applyUpdate f now r).last_bump_time = r.last_bump_time ∧
        (applyUpdate f now r).bump_count = r.bump_count ∧
        (applyUpdate f now r).is_active = r.is_active ∧
        (applyUpdate f now r).created_at = r.created_at ∧
        (applyUpdate f now r).updated_at = now) := by
  constructor
  · intro h
    refine ⟨?_, rfl, rfl, rfl, rfl, rfl⟩
    unfold upsert_thread
    rw [h]
  · intro r0 h
    constructor
    · unfold upsert_thread
      rw [h]
    · intro r
      refine ⟨rfl, ?_, ?_, ?_, ?_, rfl, rfl, rfl, rfl, rfl⟩ <;>
        (intro hn; simp [applyUpdate, hn])

/-- Witness for C6: inserting thread 1 into the empty store. -/
theorem upsert_contract_witness :
    (upsert_thread ⟨[], []⟩ 5 1 {}).threads = [] ++ [insertRow 1 {} 5] :=
  ((upsert_contract ⟨[], []⟩ 5 1 {}).1 rfl).1

/-! ### Claim theorems: scheduling policy -/

/-- Claim C4: for a due thread whose bump call succeeds, processing
increments `bump_count` by one, resets `consecutive_failures`, clears
`last_error`, and stores `next_bump_time = now + BUMP_INTERVAL + jitter`,
which lies in `[now + BUMP_INTERVAL + 30, now + BUMP_INTERVAL + 300]`. -/
theorem success_outcome (cfg : Config) (now jitter : Int) (infoNext : Option Int) (msg : String)
    (thread : ThreadRow) (s : ServiceState)
    (hdue : thread.next_bump_time ≤ now) (hj1 : 30 ≤ jitter) (hj2 : jitter ≤ 300) :
    ((process_thread cfg now jitter infoNext (.ok msg) thread s).2).db.threads
      = s.db.threads.map (fun r =>
          if r.thread_id = thread.thread_id then
            { r with
              last_bump_time := now
              next_bump_time := now + cfg.BUMP_INTERVAL + jitter
              bump_count := r.bump_count + 1
              last_error := none
              consecutive_failures := 0
              updated_at := now }
          else r) ∧
    now + cfg.BUMP_INTERVAL + 30 ≤ now + cfg.BUMP_INTERVAL + jitter ∧
    now + cfg.BUMP_INTERVAL + jitter ≤ now + cfg.BUMP_INTERVAL + 300 := by
  refine ⟨?_, by omega, by omega⟩
  simp [process_thread, bump_thread, record_bump_success, insertHistory, successUpdate]

/-- Witness for C4 at a concrete due thread. -/
theorem success_outcome_witness :
    ((process_thread ⟨43200, [60], 10, false⟩ 100 30 none (.ok "Bumped")
        ⟨1, none, 0, 99, 5, some "e", 2, true, 0, 0⟩
        ⟨⟨[⟨1, none, 0, 99, 5, some "e", 2, true, 0, 0⟩], []⟩, true, []⟩).2).db.threads
      = [⟨1, none, 100, 100 + 43200 + 30, 6, none, 0, true, 0, 100⟩] := by
  have h := success_outcome ⟨43200, [60], 10, false⟩ 100 30 none "Bumped"
      ⟨1, none, 0, 99, 5, some "e", 2, true, 0, 0⟩
      ⟨⟨[⟨1, none, 0, 99, 5, some "e", 2, true, 0, 0⟩], []⟩, true, []⟩
      (by decide) (by decide) (by decide)
  rw [h.1]
  rfl

/-- Claim C1 fails on the code: a 429 (rate-limited) response falls into
the generic-failure branch of `process_thread`.  At a thread with three
consecutive failures the code stores
`next_bump_time = now + RETRY_DELAYS[min(4, 3)] = 1000 + 3600` (not
`now + 120`: the `now + 120` computed in `_bump_thread` is discarded) and
bumps `consecutive_failures` from 3 to 4 (the claim says unchanged). -/
theorem rate_limited_processed_as_failure :
    ((process_thread ⟨43200, [60, 300, 900, 3600], 10, false⟩ 1000 100 none .rateLimited
        ⟨1, none, 0, 0, 0, none, 3, true, 0, 0⟩
        ⟨⟨[⟨1, none, 0, 0, 0, none, 3, true, 0, 0⟩], []⟩, true, []⟩).2).db.threads
      = [⟨1, none, 0, 4600, 0, some "Rate Limit", 4, true, 0, 1000⟩] ∧
    (4 : Nat) ≠ 3 ∧ (4600 : Int) ≠ 1000 + 120 :=
  ⟨rfl, by decide, by decide⟩

/-- Counterexample for claim C2: at current failure count `f = 0` (below
the maximum 10) a generic failure is scheduled at
`now + RETRY_DELAYS[min(f + 1, len - 1)] = 1000 + 300`, not at
`now + RETRY_DELAYS[min(f, len - 1)] = 1000 + 60` as claimed: the code
indexes the backoff table with the incremented count. -/
theorem retry_index_counterexample :
    ((process_thread ⟨43200, [60, 300, 900], 10, false⟩ 1000 100 none (.otherError 500)
        ⟨1, none, 0, 0, 0, none, 0, true, 0, 0⟩
        ⟨⟨[⟨1, none, 0, 0, 0, none, 0, true, 0, 0⟩], []⟩, true, []⟩).2).db.threads
      = [⟨1, none, 0, 1300, 0, some "Error 500", 1, true, 0, 1000⟩] ∧
    (1300 : Int) ≠ 1000 + 60 :=
  ⟨rfl, by decide⟩

/-- Claim C2 (amended): a generic failure first increments the in-memory
count to `f + 1`; if `f + 1` is still below `MAX_CONSECUTIVE_FAILURES`
the next attempt is `now + RETRY_DELAYS[min(f + 1, len - 1)]` and the
stored counter is incremented; once `f + 1` reaches the maximum the row
is reset to `consecutive_failures = 0` with
`next_bump_time = now + BUMP_INTERVAL`, and an operator alert is emitted
when a bot is configured. -/
theorem generic_failure_backoff (cfg : Config) (now jitter : Int) (infoNext : Option Int)
    (st : Nat) (thread : ThreadRow) (s : ServiceState)
    (hne : cfg.RETRY_DELAYS ≠ [])
    (hp : get_thread s.db thread.thread_id ≠ none) :
    (thread.consecutive_failures + 1 < cfg.MAX_CONSECUTIVE_FAILURES →
      ((process_thread cfg now jitter infoNext (.otherError st) thread s).2).db.threads
        = s.db.threads.map (fun r =>
            if r.thread_id = thread.thread_id then
              { r with
                next_bump_time := now + cfg.RETRY_DELAYS.getD
                    (min (thread.consecutive_failures + 1) (cfg.RETRY_DELAYS.length - 1)) 0
                last_error := some ("Error " ++ toString st)
                consecutive_failures := r.consecutive_failures + 1
                updated_at := now }
            else r)) ∧
    (cfg.MAX_CONSECUTIVE_FAILURES ≤ thread.consecutive_failures + 1 →
      ((process_thread cfg now jitter infoNext (.otherError st) thread s).2).db.threads
        = s.db.threads.map (fun r =>
            if r.thread_id = thread.thread_id then
              { r with
                next_bump_time := now + cfg.BUMP_INTERVAL
                last_error := some ("Too many errors: " ++ ("Error " ++ toString st))
                consecutive_failures := 0
                updated_at := now }
            else r) ∧
      (cfg.hasBot = true →
        ((process_thread cfg now jitter infoNext (.otherError st) thread s).2).alerts
          = s.alerts ++ ["Skipped " ++ toString thread.thread_id])) := by
  obtain ⟨r0, hr0⟩ := Option.ne_none_iff_exists'.mp hp
  constructor
  · intro hlt
    have hnot : ¬ thread.consecutive_failures + 1 ≥ cfg.MAX_CONSECUTIVE_FAILURES := by omega
    simp [process_thread, bump_thread, hnot, record_bump_failure, insertHistory, failureUpdate]
  · intro hge
    have hyes : thread.consecutive_failures + 1 ≥ cfg.MAX_CONSECUTIVE_FAILURES := hge
    constructor
    · simp only [process_thread, bump_thread, if_neg, if_pos hyes]
      simp [upsert_thread, hr0, applyUpdate]
    · intro hbot
      simp [process_thread, bump_thread, hyes, hbot]

/-- Witness for C2 (amended) at a concrete thread with two prior
failures, below the maximum. -/
theorem generic_failure_backoff_witness :
    ((process_thread ⟨43200, [60, 300, 900], 10, false⟩ 1000 100 none (.otherError 500)
        ⟨1, none, 0, 0, 0, none, 2, true, 0, 0⟩
        ⟨⟨[⟨1, none, 0, 0, 0, none, 2, true, 0, 0⟩], []⟩, true, []⟩).2).db.threads
      = [⟨1, none, 0, 1900, 0, some "Error 500", 3, true, 0, 1000⟩] := by
  have h := generic_failure_backoff ⟨43200, [60, 300, 900], 10, false⟩ 1000 100 none 500
      ⟨1, none, 0, 0, 0, none, 2, true, 0, 0⟩
      ⟨⟨[⟨1, none, 0, 0, 0, none, 2, true, 0, 0⟩], []⟩, true, []⟩
      (by decide) (by decide)
  rw [h.1 (by decide)]
  rfl

/-- Counterexample for claim C3: a cooldown (403) outcome whose follow-up
info fetch reports `next_available_time = 5` stores 5 verbatim as
`next_bump_time`, although the outcome is processed at time 1000 — the
stored time is not strictly greater than the time of the outcome. -/
theorem cooldown_past_time_counterexample :
    ((process_thread ⟨43200, [60, 300, 900], 10, false⟩ 1000 100 (some 5) (.cooldown "Cooldown")
        ⟨1, none, 0, 0, 0, none, 0, true, 0, 0⟩
        ⟨⟨[⟨1, none, 0, 0, 0, none, 0, true, 0, 0⟩], []⟩, true, []⟩).2).db.threads
      = [⟨1, none, 0, 5, 0, some "Cooldown", 0, true, 0, 1000⟩] ∧
    ¬ ((5 : Int) > 1000) :=
  ⟨rfl, by decide⟩

/-- Claim C3 (amended): after processing a success, rate-limited or
generic-failure outcome — and a cooldown outcome for which the remote
supplied no usable next-eligible time — every row carrying the processed
thread id has `next_bump_time > now`, provided `BUMP_INTERVAL` is
positive, the jitter is at least 30 and all retry delays are positive; a
cooldown with a remote-supplied nonzero time instead stores that time
verbatim, which may lie in the past. -/
theorem monotonic_readiness (cfg : Config) (now jitter : Int) (infoNext : Option Int)
    (resp : ApiResponse) (thread : ThreadRow) (s : ServiceState)
    (hBI : 0 < cfg.BUMP_INTERVAL) (hj : 30 ≤ jitter)
    (hpos : ∀ d ∈ cfg.RETRY_DELAYS, 0 < d) (hne : cfg.RETRY_DELAYS ≠ [])
    (hnf : resp ≠ .invalidToken)
    (hcool : ∀ e, resp = .cooldown e → infoNext = none ∨ infoNext = some 0) :
    ∀ r ∈ ((process_thread cfg now jitter infoNext resp thread s).2).db.threads,
      r.thread_id = thread.thread_id → now < r.next_bump_time := by
  have hlen : 0 < cfg.RETRY_DELAYS.length := List.length_pos.mpr hne
  have hdelay : 0 < cfg.RETRY_DELAYS.getD
      (min (thread.consecutive_failures + 1) (cfg.RETRY_DELAYS.length - 1)) 0 := by
    refine hpos _ (getD_mem_of_lt _ _ ?_)
    omega
  -- the upsert performed by the cooldown and at-max branches always stores
  -- the given next_bump_time on every row carrying the processed id
  have upsert_bound : ∀ (db : DBState) (err : String) (nt : Int), now < nt →
      ∀ r ∈ (upsert_thread db now thread.thread_id
          { next_bump_time := some nt, last_error := some err,
            consecutive_failures := some 0 } : DBState).threads,
        r.thread_id = thread.thread_id → now < r.next_bump_time := by
    intro db err nt hnt r hr hid
    unfold upsert_thread at hr
    cases hfind : get_thread db thread.thread_id with
    | some r0 =>
        rw [hfind] at hr
        obtain ⟨q, _, _, hq⟩ := mem_condMap hr hid
        rw [hq]
        simpa [applyUpdate] using hnt
    | none =>
        rw [hfind] at hr
        simp only [List.mem_append] at hr
        cases hr with
        | inl hmem =>
            exfalso
            unfold get_thread at hfind
            have := List.find?_eq_none.mp hfind r hmem
            simp [hid] at this
        | inr hmem =>
            simp only [List.mem_singleton] at hmem
            rw [hmem]
            simpa [insertRow] using hnt
  -- the record_bump_failure performed below the maximum stores now + delay
  have failure_bound : ∀ (err : String) (nt : Int), now < nt →
      ∀ r ∈ (record_bump_failure s.db now thread.thread_id err nt).threads,
        r.thread_id = thread.thread_id → now < r.next_bump_time := by
    intro err nt hnt r hr hid
    obtain ⟨q, _, _, hq⟩ :=
      mem_condMap (show r ∈ s.db.threads.map _ from hr) hid
    rw [hq]
    exact hnt
  cases resp with
  | ok msg =>
      intro r hr hid
      have hred : ((process_thread cfg now jitter infoNext (.ok msg) thread s).2).db
          = record_bump_success s.db now thread.thread_id msg
              (now + cfg.BUMP_INTERVAL + jitter) := by
        simp [process_thread, bump_thread]
      rw [hred] at hr
      obtain ⟨q, _, _, hq⟩ :=
        mem_condMap (show r ∈ s.db.threads.map _ from hr) hid
      rw [hq]
      show now < now + cfg.BUMP_INTERVAL + jitter
      omega
  | cooldown e =>
      intro r hr hid
      have hred : ((process_thread cfg now jitter infoNext (.cooldown e) thread s).2).db
          = upsert_thread s.db now thread.thread_id
              { next_bump_time := some (now + cfg.BUMP_INTERVAL), last_error := some e,
                consecutive_failures := some 0 } := by
        rcases hcool e rfl with h0 | h0 <;> subst h0 <;> simp [process_thread, bump_thread]
      rw [hred] at hr
      exact upsert_bound s.db e (now + cfg.BUMP_INTERVAL) (by omega) r hr hid
  | invalidToken => exact absurd rfl hnf
  | rateLimited =>
      intro r hr hid
      by_cases hmax : thread.consecutive_failures + 1 ≥ cfg.MAX_CONSECUTIVE_FAILURES
      · have hred : ((process_thread cfg now jitter infoNext .rateLimited thread s).2).db
            = upsert_thread s.db now thread.thread_id
                { next_bump_time := some (now + cfg.BUMP_INTERVAL),
                  last_error := some ("Too many errors: " ++ "Rate Limit"),
                  consecutive_failures := some 0 } := by
          simp [process_thread, bump_thread, hmax]
        rw [hred] at hr
        exact upsert_bound s.db _ (now + cfg.BUMP_INTERVAL) (by omega) r hr hid
      · have hred : ((process_thread cfg now jitter infoNext .rateLimited thread s).2).db
            = record_bump_failure s.db now thread.thread_id "Rate Limit"
                (now + cfg.RETRY_DELAYS.getD
                  (min (thread.consecutive_failures + 1) (cfg.RETRY_DELAYS.length - 1)) 0) := by
          simp [process_thread, bump_thread, hmax]
        rw [hred] at hr
        exact failure_bound _ _ (by omega) r hr hid
  | otherError st =>
      intro r hr hid
      by_cases hmax : thread.consecutive_failures + 1 ≥ cfg.MAX_CONSECUTIVE_FAILURES
      · have hred : ((process_thread cfg now jitter infoNext (.otherError st) thread s).2).db
            = upsert_thread s.db now thread.thread_id
                { next_bump_time := some (now + cfg.BUMP_INTERVAL),
                  last_error := some ("Too many errors: " ++ ("Error " ++ toString st)),
                  consecutive_failures := some 0 } := by
          simp [process_thread, bump_thread, hmax]
        rw [hred] at hr
        exact upsert_bound s.db _ (now + cfg.BUMP_INTERVAL) (by omega) r hr hid
      · have hred : ((process_thread cfg now jitter infoNext (.otherError st) thread s).2).db
            = record_bump_failure s.db now thread.thread_id ("Error " ++ toString st)
                (now + cfg.RETRY_DELAYS.getD
                  (min (thread.consecutive_failures + 1) (cfg.RETRY_DELAYS.length - 1)) 0) := by
          simp [process_thread, bump_thread, hmax]
        rw [hred] at hr
        exact failure_bound _ _ (by omega) r hr hid
  | exn m =>
      intro r hr hid
      by_cases hmax : thread.consecutive_failures + 1 ≥ cfg.MAX_CONSECUTIVE_FAILURES
      · have hred : ((process_thread cfg now jitter infoNext (.exn m) thread s).2).db
            = upsert_thread s.db now thread.thread_id
                { next_bump_time := some (now + cfg.BUMP_INTERVAL),
                  last_error := some ("Too many errors: " ++ m),
                  consecutive_failures := some 0 } := by
          simp [process_thread, bump_thread, hmax]
        rw [hred] at hr
        exact upsert_bound s.db _ (now + cfg.BUMP_INTERVAL) (by omega) r hr hid
      · have hred : ((process_thread cfg now jitter infoNext (.exn m) thread s).2).db
            = record_bump_failure s.db now thread.thread_id m
                (now + cfg.RETRY_DELAYS.getD
                  (min (thread.consecutive_failures + 1) (cfg.RETRY_DELAYS.length - 1)) 0) := by
          simp [process_thread, bump_thread, hmax]
        rw [hred] at hr
        exact failure_bound _ _ (by omega) r hr hid

/-- Witness for C3 (amended): the successful bump of thread 1 at time
1000 schedules it strictly later than 1000. -/
theorem monotonic_readiness_witness :
    (1000 : Int)
      < (⟨1, none, 1000, 1000 + 43200 + 30, 1, none, 0, true, 0, 1000⟩ : ThreadRow).next_bump_time := by
  have h := monotonic_readiness ⟨43200, [60], 10, false⟩ 1000 30 none (.ok "B")
      ⟨1, none, 0, 0, 0, some "e", 0, true, 0, 0⟩
      ⟨⟨[⟨1, none, 0, 0, 0, some "e", 0, true, 0, 0⟩], []⟩, true, []⟩
      (by decide) (by decide) (by decide) (by decide) (by decide)
      (fun e he => ApiResponse.noConfusion he)
  exact h ⟨1, none, 1000, 1000 + 43200 + 30, 1, none, 0, true, 0, 1000⟩ (by decide) rfl

/-- Counterexample for claim C9: a fatal (401) outcome hitting a thread
whose incremented failure count reaches the maximum (9 + 1 = 10) resets
the row but appends no failure history record: the history stays empty,
while the claim demands an appended record. -/
theorem fatal_at_max_no_history :
    ((process_thread ⟨43200, [60, 300, 900], 10, true⟩ 1000 100 none .invalidToken
        ⟨1, none, 0, 0, 0, none, 9, true, 0, 0⟩
        ⟨⟨[⟨1, none, 0, 0, 0, none, 9, true, 0, 0⟩], []⟩, true, []⟩).2).db.history
      = ([] : List HistoryRow) ∧
    ((process_thread ⟨43200, [60, 300, 900], 10, true⟩ 1000 100 none .invalidToken
        ⟨1, none, 0, 0, 0, none, 9, true, 0, 0⟩
        ⟨⟨[⟨1, none, 0, 0, 0, none, 9, true, 0, 0⟩], []⟩, true, []⟩).2).db.threads
      = [⟨1, none, 0, 44200, 0, some "Too many errors: ", 0, true, 0, 1000⟩] :=
  ⟨rfl, rfl⟩

/-- Claim C9 (amended): before the Driver halts, a fatal (401) outcome is
still fed through the generic-failure branch of `process_thread` with an
empty message: when the incremented count stays below the maximum the
row's counter is incremented, its `next_bump_time` advanced by the retry
delay and an empty-message failure history record appended; when the
incremented count reaches the maximum the row is reset
(`consecutive_failures = 0`, `next_bump_time = now + BUMP_INTERVAL`)
with no history record. -/
theorem fatal_per_thread_failure (cfg : Config) (now jitter : Int) (infoNext : Option Int)
    (thread : ThreadRow) (s : ServiceState)
    (hne : cfg.RETRY_DELAYS ≠ [])
    (hp : get_thread s.db thread.thread_id ≠ none) :
    ((process_thread cfg now jitter infoNext .invalidToken thread s).2).running = false ∧
    (thread.consecutive_failures + 1 < cfg.MAX_CONSECUTIVE_FAILURES →
      ((process_thread cfg now jitter infoNext .invalidToken thread s).2).db.threads
        = s.db.threads.map (fun r =>
            if r.thread_id = thread.thread_id then
              { r with
                next_bump_time := now + cfg.RETRY_DELAYS.getD
                    (min (thread.consecutive_failures + 1) (cfg.RETRY_DELAYS.length - 1)) 0
                last_error := some ""
                consecutive_failures := r.consecutive_failures + 1
                updated_at := now }
            else r) ∧
      ((process_thread cfg now jitter infoNext .invalidToken thread s).2).db.history
        = s.db.history ++ [⟨thread.thread_id, now, false, ""⟩]) ∧
    (cfg.MAX_CONSECUTIVE_FAILURES ≤ thread.consecutive_failures + 1 →
      ((process_thread cfg now jitter infoNext .invalidToken thread s).2).db.threads
        = s.db.threads.map (fun r =>
            if r.thread_id = thread.thread_id then
              { r with
                next_bump_time := now + cfg.BUMP_INTERVAL
                last_error := some ("Too many errors: " ++ "")
                consecutive_failures := 0
                updated_at := now }
            else r) ∧
      ((process_thread cfg now jitter infoNext .invalidToken thread s).2).db.history
        = s.db.history) := by
  obtain ⟨r0, hr0⟩ := Option.ne_none_iff_exists'.mp hp
  refine ⟨?_, ?_, ?_⟩
  · by_cases hmax : thread.consecutive_failures + 1 ≥ cfg.MAX_CONSECUTIVE_FAILURES <;>
      simp [process_thread, bump_thread, hmax]
  · intro hlt
    have hnot : ¬ thread.consecutive_failures + 1 ≥ cfg.MAX_CONSECUTIVE_FAILURES := by omega
    constructor <;>
      simp [process_thread, bump_thread, hnot, record_bump_failure, insertHistory, failureUpdate]
  · intro hge
    have hyes : thread.consecutive_failures + 1 ≥ cfg.MAX_CONSECUTIVE_FAILURES := hge
    constructor
    · have hred : ((process_thread cfg now jitter infoNext .invalidToken thread s).2).db
          = upsert_thread s.db now thread.thread_id
              { next_bump_time := some (now + cfg.BUMP_INTERVAL),
                last_error := some ("Too many errors: " ++ ""),
                consecutive_failures := some 0 } := by
        simp [process_thread, bump_thread, hyes]
      rw [hred]
      simp [upsert_thread, hr0, applyUpdate]
    · have hred : ((process_thread cfg now jitter infoNext .invalidToken thread s).2).db
          = upsert_thread s.db now thread.thread_id
              { next_bump_time := some (now + cfg.BUMP_INTERVAL),
                last_error := some ("Too many errors: " ++ ""),
                consecutive_failures := some 0 } := by
        simp [process_thread, bump_thread, hyes]
      rw [hred]
      unfold upsert_thread
      rw [hr0]

/-- Witness for C9 (amended) at a thread below the failure maximum. -/
theorem fatal_per_thread_failure_witness :
    ((process_thread ⟨43200, [60, 300, 900], 10, true⟩ 1000 100 none .invalidToken
        ⟨1, none, 0, 0, 0, none, 2, true, 0, 0⟩
        ⟨⟨[⟨1, none, 0, 0, 0, none, 2, true, 0, 0⟩], []⟩, true, []⟩).2).running = false := by
  have h := fatal_per_thread_failure ⟨43200, [60, 300, 900], 10, true⟩ 1000 100 none
      ⟨1, none, 0, 0, 0, none, 2, true, 0, 0⟩
      ⟨⟨[⟨1, none, 0, 0, 0, none, 2, true, 0, 0⟩], []⟩, true, []⟩
      (by decide) (by decide)
  exact h.1

/-! ### Claim theorems: cycle driver -/

/-- With the `running` flag down, the dispatch loop starts nothing. -/
lemma run_cycle_halted (cfg : Config) (items : List (ThreadRow × Env)) (s : ServiceState)
    (h : s.running = false) : run_cycle cfg items s = (s, []) := by
  cases items with
  | nil => rfl
  | cons a rest =>
      obtain ⟨t, e⟩ := a
      simp [run_cycle, h]

/-- `process_thread` never raises the `running` flag. -/
lemma process_thread_running (cfg : Config) (now jitter : Int) (infoNext : Option Int)
    (resp : ApiResponse) (thread : ThreadRow) (s : ServiceState) :
    ((process_thread cfg now jitter infoNext resp thread s).2).running
      = ((bump_thread cfg now jitter infoNext resp s).2).running := by
  cases resp <;>
    by_cases hmax : thread.consecutive_failures + 1 ≥ cfg.MAX_CONSECUTIVE_FAILURES <;>
      simp [process_thread, bump_thread, hmax]

/-- Claim C7: a fatal (401) outcome during a cycle drops the `running`
flag and emits the critical alert; the loop dispatches no further thread
in that cycle, and any later cycle on that state dispatches nothing. -/
theorem fatal_halts_cycle (cfg : Config) (t : ThreadRow) (e : Env)
    (rest later : List (ThreadRow × Env)) (s : ServiceState)
    (hrun : s.running = true) (hfatal : e.resp = .invalidToken) (hbot : cfg.hasBot = true) :
    (run_cycle cfg ((t, e) :: rest) s).2 = [t.thread_id] ∧
    (run_cycle cfg ((t, e) :: rest) s).1.running = false ∧
    (∃ extra, (run_cycle cfg ((t, e) :: rest) s).1.alerts
        = (s.alerts ++ ["CRITICAL: Invalid Token!"]) ++ extra) ∧
    run_cycle cfg later (run_cycle cfg ((t, e) :: rest) s).1
      = ((run_cycle cfg ((t, e) :: rest) s).1, []) := by
  have hstep : ((process_thread cfg e.now e.jitter e.infoNext e.resp t s).2).running = false := by
    rw [process_thread_running, hfatal]
    simp [bump_thread]
  have hcycle : run_cycle cfg ((t, e) :: rest) s
      = ((process_thread cfg e.now e.jitter e.infoNext e.resp t s).2, [t.thread_id]) := by
    simp [run_cycle, hrun, run_cycle_halted cfg rest _ hstep]
  rw [hcycle]
  refine ⟨rfl, hstep, ?_, run_cycle_halted cfg later _ hstep⟩
  rw [hfatal]
  by_cases hmax : t.consecutive_failures + 1 ≥ cfg.MAX_CONSECUTIVE_FAILURES
  · exact ⟨["Skipped " ++ toString t.thread_id],
      by simp [process_thread, bump_thread, hmax, hbot]⟩
  · exact ⟨[], by simp [process_thread, bump_thread, hmax, hbot]⟩

/-- Witness for C7: a concrete two-thread cycle where the first dispatch
hits the 401. -/
theorem fatal_halts_cycle_witness :
    (run_cycle ⟨43200, [60], 10, true⟩
        [(⟨1, none, 0, 0, 0, none, 0, true, 0, 0⟩, ⟨1000, 30, none, .invalidToken⟩),
         (⟨2, none, 0, 0, 0, none, 0, true, 0, 0⟩, ⟨1000, 30, none, .ok "B"⟩)]
        ⟨⟨[⟨1, none, 0, 0, 0, none, 0, true, 0, 0⟩,
           ⟨2, none, 0, 0, 0, none, 0, true, 0, 0⟩], []⟩, true, []⟩).2 = [1] := by
  have h := fatal_halts_cycle ⟨43200, [60], 10, true⟩
      ⟨1, none, 0, 0, 0, none, 0, true, 0, 0⟩ ⟨1000, 30, none, .invalidToken⟩
      [(⟨2, none, 0, 0, 0, none, 0, true, 0, 0⟩, ⟨1000, 30, none, .ok "B"⟩)] []
      ⟨⟨[⟨1, none, 0, 0, 0, none, 0, true, 0, 0⟩,
         ⟨2, none, 0, 0, 0, none, 0, true, 0, 0⟩], []⟩, true, []⟩
      rfl rfl rfl
  exact h.1

/-! ### Reconciliation idempotency (claim C8) -/

/-- The rows of a table carrying a given thread id. -/
def rowsFor (x : Nat) (l : List ThreadRow) : List ThreadRow :=
  l.filter (fun r => r.thread_id = x)

/-- A conditional row update with an id-preserving payload keeps the id
column of the table. -/
lemma condMap_ids (l : List ThreadRow) (tid : Nat) (g : ThreadRow → ThreadRow)
    (hg : ∀ q, (g q).thread_id = q.thread_id) :
    (l.map (fun r => if r.thread_id = tid then g r else r)).map (·.thread_id)
      = l.map (·.thread_id) := by
  rw [List.map_map]
  apply List.map_congr_left
  intro r _
  by_cases h : r.thread_id = tid <;> simp [h, hg]

/-- A conditional row update for one id leaves the rows of any other id
untouched. -/
lemma condMap_rowsFor_ne (l : List ThreadRow) (tid : Nat) (g : ThreadRow → ThreadRow)
    (hg : ∀ q, (g q).thread_id = q.thread_id) (x : Nat) (hx : x ≠ tid) :
    rowsFor x (l.map (fun r => if r.thread_id = tid then g r else r)) = rowsFor x l := by
  induction l with
  | nil => rfl
  | cons a t ih =>
      simp only [rowsFor, List.map_cons, List.filter_cons] at ih ⊢
      by_cases h : a.thread_id = tid
      · have hgx : ¬ (g a).thread_id = x := by rw [hg, h]; exact fun hh => hx hh.symm
        have hax : ¬ a.thread_id = x := by rw [h]; exact fun hh => hx hh.symm
        rw [if_pos h]
        simp [hgx, hax, ih]
      · rw [if_neg h]
        by_cases h2 : a.thread_id = x <;> simp [h2, ih]

/-- A conditional row update with an activity-preserving payload keeps
"every row of this id is active". -/
lemma condMap_noInact (l : List ThreadRow) (tid : Nat) (g : ThreadRow → ThreadRow) (x : Nat)
    (hgid : ∀ q, (g q).thread_id = q.thread_id)
    (hact : ∀ q, q.is_active = true → (g q).is_active = true)
    (h : ∀ r ∈ l, r.thread_id = x → r.is_active = true) :
    ∀ r ∈ l.map (fun q => if q.thread_id = tid then g q else q),
      r.thread_id = x → r.is_active = true := by
  intro r hr hrx
  obtain ⟨q, hq, hrq⟩ := List.mem_map.mp hr
  by_cases hqt : q.thread_id = tid
  · rw [if_pos hqt] at hrq
    rw [← hrq]
    refine hact q (h q hq ?_)
    rw [← hrq] at hrx
    rw [← hgid q, hrx]
  · rw [if_neg hqt] at hrq
    rw [← hrq]
    exact h q hq (by rw [← hrq] at hrx; exact hrx)

/-- A table whose id column has no duplicates holds at most one row per
id. -/
lemma nodup_ids_unique (l : List ThreadRow) (h : (l.map (·.thread_id)).Nodup) :
    ∀ a ∈ l, ∀ b ∈ l, a.thread_id = b.thread_id → a = b := by
  induction l with
  | nil => intro a ha; exact absurd ha (List.not_mem_nil a)
  | cons c t ih =>
      simp only [List.map_cons, List.nodup_cons] at h
      intro a ha b hb hab
      rcases List.mem_cons.mp ha with ha1 | ha1 <;> rcases List.mem_cons.mp hb with hb1 | hb1
      · rw [ha1, hb1]
      · exfalso
        refine h.1 ?_
        rw [ha1] at hab
        rw [hab]
        exact List.mem_map_of_mem _ hb1
      · exfalso
        refine h.1 ?_
        rw [hb1] at hab
        rw [← hab]
        exact List.mem_map_of_mem _ ha1
      · exact ih h.2 a ha1 b hb1 hab

/-- The id column survives `upsert_thread`: old ids remain, the touched
id is present afterwards. -/
lemma upsert_ids (db : DBState) (now : Int) (tid : Nat) (f : UpsertFields) :
    (∀ x, x ∈ db.threads.map (·.thread_id)
      → x ∈ (upsert_thread db now tid f).threads.map (·.thread_id)) ∧
    tid ∈ (upsert_thread db now tid f).threads.map (·.thread_id) := by
  unfold upsert_thread
  cases hfind : get_thread db tid with
  | some r0 =>
      dsimp only
      rw [condMap_ids db.threads tid (applyUpdate f now) (fun q => rfl)]
      refine ⟨fun x hx => hx, ?_⟩
      have hr0 : r0 ∈ db.threads := List.mem_of_find?_eq_some hfind
      have hid : r0.thread_id = tid := by simpa using List.find?_some hfind
      rw [← hid]
      exact List.mem_map_of_mem _ hr0
  | none =>
      dsimp only
      simp only [List.map_append]
      exact ⟨fun x hx => List.mem_append_left _ hx,
        List.mem_append_right _ (by simp [insertRow])⟩

/-- One reconciliation-insert step never removes an id and always makes
its own id present. -/
lemma initConfigStep_ids (remote : Nat → Option RemoteInfo) (now : Int)
    (snap : List ThreadRow) (db : DBState) (tid : Nat)
    (hsub : ∀ y, y ∈ snap.map (·.thread_id) → y ∈ db.threads.map (·.thread_id)) :
    (∀ x, x ∈ db.threads.map (·.thread_id)
      → x ∈ (initConfigStep remote now snap db tid).threads.map (·.thread_id)) ∧
    tid ∈ (initConfigStep remote now snap db tid).threads.map (·.thread_id) := by
  unfold initConfigStep
  by_cases hc : (snap.map (·.thread_id)).contains tid
  · rw [if_pos hc]
    have htid : tid ∈ db.threads.map (·.thread_id) := hsub tid (by simpa using hc)
    cases hfind : snap.find? (fun t => t.thread_id = tid) with
    | some t =>
        dsimp only
        by_cases ha : t.is_active
        · rw [if_pos ha]
          exact ⟨fun x hx => hx, htid⟩
        · rw [if_neg ha]
          unfold activate_thread
          rw [condMap_ids db.threads tid
            (fun r => { r with is_active := true, consecutive_failures := 0, updated_at := now }) (fun q => rfl)]
          exact ⟨fun x hx => hx, htid⟩
    | none => exact ⟨fun x hx => hx, htid⟩
  · rw [if_neg hc]
    exact upsert_ids db now tid _

/-- One reconciliation-insert step leaves the rows of every other id
untouched. -/
lemma initConfigStep_frame (remote : Nat → Option RemoteInfo) (now : Int)
    (snap : List ThreadRow) (db : DBState) (tid : Nat) (x : Nat) (hx : x ≠ tid) :
    rowsFor x (initConfigStep remote now snap db tid).threads = rowsFor x db.threads := by
  unfold initConfigStep
  by_cases hc : (snap.map (·.thread_id)).contains tid
  · rw [if_pos hc]
    cases hfind : snap.find? (fun t => t.thread_id = tid) with
    | some t =>
        dsimp only
        by_cases ha : t.is_active
        · rw [if_pos ha]
        · rw [if_neg ha]
          unfold activate_thread
          exact condMap_rowsFor_ne db.threads tid
            (fun r => { r with is_active := true, consecutive_failures := 0, updated_at := now }) (fun q => rfl) x hx
    | none => rfl
  · rw [if_neg hc]
    unfold upsert_thread
    cases hfind : get_thread db tid with
    | some r0 =>
        dsimp only
        exact condMap_rowsFor_ne db.threads tid (applyUpdate _ now) (fun q => rfl) x hx
    | none =>
        dsimp only
        unfold rowsFor
        rw [List.filter_append]
        have hnil : ∀ f0 : UpsertFields,
            (([insertRow tid f0 now]).filter (fun r => r.thread_id = x)) = [] := by
          intro f0
          simp [insertRow, Ne.symm hx]
        rw [hnil, List.append_nil]

/-- One reconciliation-insert step keeps "every row of this id is
active", for every id. -/
lemma initConfigStep_noInact (remote : Nat → Option RemoteInfo) (now : Int)
    (snap : List ThreadRow) (db : DBState) (tid : Nat) (x : Nat)
    (h : ∀ r ∈ db.threads, r.thread_id = x → r.is_active = true) :
    ∀ r ∈ (initConfigStep remote now snap db tid).threads,
      r.thread_id = x → r.is_active = true := by
  unfold initConfigStep
  by_cases hc : (snap.map (·.thread_id)).contains tid
  · rw [if_pos hc]
    cases hfind : snap.find? (fun t => t.thread_id = tid) with
    | some t =>
        dsimp only
        by_cases ha : t.is_active
        · rw [if_pos ha]; exact h
        · rw [if_neg ha]
          unfold activate_thread
          exact condMap_noInact db.threads tid
            (fun r => { r with is_active := true, consecutive_failures := 0, updated_at := now }) x (fun q => rfl) (fun q _ => rfl) h
    | none => exact h
  · rw [if_neg hc]
    unfold upsert_thread
    cases hfind : get_thread db tid with
    | some r0 =>
        dsimp only
        exact condMap_noInact db.threads tid (applyUpdate _ now) x (fun q => rfl)
          (fun q hq => by simp [applyUpdate, hq]) h
    | none =>
        dsimp only
        intro r hr hrx
        rcases List.mem_append.mp hr with hm | hm
        · exact h r hm hrx
        · rw [List.mem_singleton.mp hm]
          rfl

/-- Rows of an untouched id survive a conditional row update. -/
lemma condMap_other_mem {l : List ThreadRow} {tid : Nat} {g : ThreadRow → ThreadRow}
    {r : ThreadRow} (hgid : ∀ q, (g q).thread_id = q.thread_id)
    (hr : r ∈ l.map (fun q => if q.thread_id = tid then g q else q))
    (hne : r.thread_id ≠ tid) : r ∈ l := by
  obtain ⟨q, hq, hrq⟩ := List.mem_map.mp hr
  by_cases h : q.thread_id = tid
  · rw [if_pos h] at hrq
    exfalso
    apply hne
    rw [← hrq, hgid q, h]
  · rw [if_neg h] at hrq
    rw [← hrq]
    exact hq

/-- `contains` on a list of ids agrees with membership. -/
lemma contains_of_mem {l : List Nat} {x : Nat} (h : x ∈ l) : l.contains x = true := by
  simpa using h

/-- Membership follows from `contains` on a list of ids. -/
lemma mem_of_contains {l : List Nat} {x : Nat} (h : l.contains x = true) : x ∈ l := by
  simpa using h

/-- One reconciliation-insert step for an id whose rows agree with the
snapshot leaves every row of that id active. -/
lemma initConfigStep_establish (remote : Nat → Option RemoteInfo) (now : Int)
    (snap : List ThreadRow) (hsnodup : (snap.map (·.thread_id)).Nodup)
    (db : DBState) (tid : Nat)
    (hrows : rowsFor tid db.threads = rowsFor tid snap) :
    ∀ r ∈ (initConfigStep remote now snap db tid).threads,
      r.thread_id = tid → r.is_active = true := by
  unfold initConfigStep
  by_cases hc : (snap.map (·.thread_id)).contains tid
  · rw [if_pos hc]
    have hex : ∃ q ∈ snap, q.thread_id = tid := by
      obtain ⟨q, hq, hqid⟩ := List.mem_map.mp (mem_of_contains hc)
      exact ⟨q, hq, hqid⟩
    cases hfind : snap.find? (fun t => t.thread_id = tid) with
    | none =>
        exfalso
        obtain ⟨q, hq, hqid⟩ := hex
        have := List.find?_eq_none.mp hfind q hq
        simp [hqid] at this
    | some t =>
        dsimp only
        have htmem : t ∈ snap := List.mem_of_find?_eq_some hfind
        have htid : t.thread_id = tid := by simpa using List.find?_some hfind
        by_cases ha : t.is_active
        · rw [if_pos ha]
          intro r hr hrid
          have hrin : r ∈ rowsFor tid db.threads :=
            List.mem_filter.mpr ⟨hr, by simp [hrid]⟩
          rw [hrows] at hrin
          have hrs : r ∈ snap ∧ r.thread_id = tid := by
            have := List.mem_filter.mp hrin
            exact ⟨this.1, by simpa using this.2⟩
          have hrt : r = t :=
            nodup_ids_unique snap hsnodup r hrs.1 t htmem (by rw [hrs.2, htid])
          rw [hrt]
          exact ha
        · rw [if_neg ha]
          intro r hr hrid
          unfold activate_thread at hr
          obtain ⟨q, _, _, hrq⟩ := mem_condMap hr hrid
          rw [hrq]
  · rw [if_neg hc]
    have hsnap_nil : rowsFor tid snap = [] := by
      rw [rowsFor, List.filter_eq_nil_iff]
      intro a ha
      have : a.thread_id ≠ tid := by
        intro hh
        exact absurd (contains_of_mem (hh ▸ List.mem_map_of_mem (·.thread_id) ha)) hc
      simpa using this
    have hdb_nil : rowsFor tid db.threads = [] := by rw [hrows, hsnap_nil]
    have hget : get_thread db tid = none := by
      rw [get_thread, List.find?_eq_none]
      intro a ha
      have : a.thread_id ≠ tid := by
        intro hh
        have hm : a ∈ rowsFor tid db.threads := List.mem_filter.mpr ⟨ha, by simp [hh]⟩
        rw [hdb_nil] at hm
        exact absurd hm (List.not_mem_nil a)
      simpa using this
    unfold upsert_thread
    rw [hget]
    dsimp only
    intro r hr hrid
    rcases List.mem_append.mp hr with hm | hm
    · exfalso
      have hm2 : r ∈ rowsFor tid db.threads := List.mem_filter.mpr ⟨hm, by simp [hrid]⟩
      rw [hdb_nil] at hm2
      exact absurd hm2 (List.not_mem_nil r)
    · rw [List.mem_singleton.mp hm]
      rfl

/-- A reconciliation-insert fold never removes an id, and every
configured id is present afterwards. -/
lemma foldA_ids (remote : Nat → Option RemoteInfo) (now : Int) (snap : List ThreadRow) :
    ∀ (cs : List Nat) (db : DBState),
    (∀ y, y ∈ snap.map (·.thread_id) → y ∈ db.threads.map (·.thread_id)) →
    (∀ x, x ∈ db.threads.map (·.thread_id)
        → x ∈ (cs.foldl (initConfigStep remote now snap) db).threads.map (·.thread_id)) ∧
    (∀ tid ∈ cs, tid ∈ (cs.foldl (initConfigStep remote now snap) db).threads.map (·.thread_id))
  | [], db, hsub =>
      ⟨fun _ hx => hx, fun tid h => absurd h (List.not_mem_nil tid)⟩
  | c :: rest, db, hsub => by
      have hstep := initConfigStep_ids remote now snap db c hsub
      have hsub' : ∀ y, y ∈ snap.map (·.thread_id)
          → y ∈ (initConfigStep remote now snap db c).threads.map (·.thread_id) :=
        fun y hy => hstep.1 y (hsub y hy)
      have ih := foldA_ids remote now snap rest (initConfigStep remote now snap db c) hsub'
      rw [List.foldl_cons]
      refine ⟨fun x hx => ih.1 x (hstep.1 x hx), ?_⟩
      intro tid htid
      rcases List.mem_cons.mp htid with h1 | h1
      · rw [h1]
        exact ih.1 c hstep.2
      · exact ih.2 tid h1

/-- A reconciliation-insert fold leaves the rows of every id outside the
processed list untouched. -/
lemma foldA_frame (remote : Nat → Option RemoteInfo) (now : Int) (snap : List ThreadRow) :
    ∀ (cs : List Nat) (db : DBState) (x : Nat), (∀ c ∈ cs, c ≠ x) →
    rowsFor x ((cs.foldl (initConfigStep remote now snap) db)).threads = rowsFor x db.threads
  | [], _, _, _ => rfl
  | c :: rest, db, x, h => by
      rw [List.foldl_cons,
        foldA_frame remote now snap rest _ x (fun c2 hc2 => h c2 (List.mem_cons_of_mem c hc2)),
        initConfigStep_frame remote now snap db c x
          (fun hh => h c (List.mem_cons_self c rest) hh.symm)]

/-- A reconciliation-insert fold keeps every already-all-active id
all-active. -/
lemma foldA_noInact (remote : Nat → Option RemoteInfo) (now : Int) (snap : List ThreadRow) :
    ∀ (cs : List Nat) (db : DBState) (x : Nat),
    (∀ r ∈ db.threads, r.thread_id = x → r.is_active = true) →
    ∀ r ∈ (cs.foldl (initConfigStep remote now snap) db).threads,
      r.thread_id = x → r.is_active = true
  | [], _, _, h => h
  | c :: rest, db, x, h => by
      rw [List.foldl_cons]
      exact foldA_noInact remote now snap rest _ x
        (initConfigStep_noInact remote now snap db c x h)

/-- After a reconciliation-insert fold over a duplicate-free configured
list, every row of every configured id is active, provided the starting
table agrees with the snapshot on those ids. -/
lemma foldA_active (remote : Nat → Option RemoteInfo) (now : Int) (snap : List ThreadRow)
    (hsnodup : (snap.map (·.thread_id)).Nodup) :
    ∀ (cs : List Nat) (db : DBState), cs.Nodup →
    (∀ x ∈ cs, rowsFor x db.threads = rowsFor x snap) →
    ∀ tid ∈ cs, ∀ r ∈ (cs.foldl (initConfigStep remote now snap) db).threads,
      r.thread_id = tid → r.is_active = true
  | [], _, _, _, tid, htid => absurd htid (List.not_mem_nil tid)
  | c :: rest, db, hnodup, hrows, tid, htid => by
      have hcnotin : c ∉ rest := (List.nodup_cons.mp hnodup).1
      have hrest_nodup : rest.Nodup := (List.nodup_cons.mp hnodup).2
      have hrows' : ∀ x ∈ rest,
          rowsFor x (initConfigStep remote now snap db c).threads = rowsFor x snap := by
        intro x hxr
        have hxne : x ≠ c := fun hh => hcnotin (hh ▸ hxr)
        rw [initConfigStep_frame remote now snap db c x hxne]
        exact hrows x (List.mem_cons_of_mem c hxr)
      rw [List.foldl_cons]
      rcases List.mem_cons.mp htid with h1 | h1
      · rw [h1]
        exact foldA_noInact remote now snap rest _ c
          (initConfigStep_establish remote now snap hsnodup db c
            (hrows c (List.mem_cons_self c rest)))
      · exact foldA_active remote now snap hsnodup rest _ hrest_nodup hrows' tid h1

/-- One reconciliation-deactivate step keeps the id column of the table. -/
lemma initDeactivateStep_ids (config_ids : List Nat) (now : Int) (db : DBState) (t : ThreadRow) :
    (initDeactivateStep config_ids now db t).threads.map (·.thread_id)
      = db.threads.map (·.thread_id) := by
  unfold initDeactivateStep
  by_cases hcond : ¬ config_ids.contains t.thread_id = true ∧ t.is_active = true
  · rw [if_pos hcond]
    unfold deactivate_thread
    exact condMap_ids db.threads t.thread_id
      (fun r => { r with is_active := false, updated_at := now }) (fun q => rfl)
  · rw [if_neg hcond]

/-- A reconciliation-deactivate fold keeps the id column of the table. -/
lemma foldB_ids (config_ids : List Nat) (now : Int) :
    ∀ (rows : List ThreadRow) (db : DBState),
    (rows.foldl (initDeactivateStep config_ids now) db).threads.map (·.thread_id)
      = db.threads.map (·.thread_id)
  | [], _ => rfl
  | t :: rest, db => by
      rw [List.foldl_cons, foldB_ids config_ids now rest _,
        initDeactivateStep_ids config_ids now db t]

/-- One reconciliation-deactivate step keeps every all-active configured
id all-active (it only deactivates ids outside the configured set). -/
lemma initDeactivateStep_noInact (config_ids : List Nat) (now : Int) (db : DBState)
    (t : ThreadRow) (x : Nat) (hx : config_ids.contains x = true)
    (h : ∀ r ∈ db.threads, r.thread_id = x → r.is_active = true) :
    ∀ r ∈ (initDeactivateStep config_ids now db t).threads,
      r.thread_id = x → r.is_active = true := by
  unfold initDeactivateStep
  by_cases hcond : ¬ config_ids.contains t.thread_id = true ∧ t.is_active = true
  · rw [if_pos hcond]
    intro r hr hrx
    have hxt : x ≠ t.thread_id := by
      intro hh
      rw [hh] at hx
      exact hcond.1 hx
    unfold deactivate_thread at hr
    have : r ∈ db.threads :=
      @condMap_other_mem db.threads t.thread_id
        (fun q => { q with is_active := false, updated_at := now }) r
        (fun q => rfl) hr (by rw [hrx]; exact hxt)
    exact h r this hrx
  · rw [if_neg hcond]
    exact h

/-- A reconciliation-deactivate fold keeps every all-active configured id
all-active. -/
lemma foldB_noInact (config_ids : List Nat) (now : Int) :
    ∀ (rows : List ThreadRow) (db : DBState) (x : Nat),
    config_ids.contains x = true →
    (∀ r ∈ db.threads, r.thread_id = x → r.is_active = true) →
    ∀ r ∈ (rows.foldl (initDeactivateStep config_ids now) db).threads,
      r.thread_id = x → r.is_active = true
  | [], _, _, _, h => h
  | t :: rest, db, x, hx, h => by
      rw [List.foldl_cons]
      exact foldB_noInact config_ids now rest _ x hx
        (initDeactivateStep_noInact config_ids now db t x hx h)

/-- One reconciliation-deactivate step never re-activates: an all-inactive
id stays all-inactive. -/
lemma initDeactivateStep_allInact (config_ids : List Nat) (now : Int) (db : DBState)
    (t : ThreadRow) (x : Nat)
    (h : ∀ r ∈ db.threads, r.thread_id = x → r.is_active = false) :
    ∀ r ∈ (initDeactivateStep config_ids now db t).threads,
      r.thread_id = x → r.is_active = false := by
  unfold initDeactivateStep
  by_cases hcond : ¬ config_ids.contains t.thread_id = true ∧ t.is_active = true
  · rw [if_pos hcond]
    intro r hr hrx
    unfold deactivate_thread at hr
    obtain ⟨q, hq, hrq⟩ := List.mem_map.mp hr
    by_cases hqt : q.thread_id = t.thread_id
    · rw [if_pos hqt] at hrq
      rw [← hrq]
    · rw [if_neg hqt] at hrq
      rw [← hrq]
      exact h q hq (by rw [← hrq] at hrx; exact hrx)
  · rw [if_neg hcond]
    exact h

/-- A reconciliation-deactivate fold never re-activates. -/
lemma foldB_allInact (config_ids : List Nat) (now : Int) :
    ∀ (rows : List ThreadRow) (db : DBState) (x : Nat),
    (∀ r ∈ db.threads, r.thread_id = x → r.is_active = false) →
    ∀ r ∈ (rows.foldl (initDeactivateStep config_ids now) db).threads,
      r.thread_id = x → r.is_active = false
  | [], _, _, h => h
  | t :: rest, db, x, h => by
      rw [List.foldl_cons]
      exact foldB_allInact config_ids now rest _ x
        (initDeactivateStep_allInact config_ids now db t x h)

/-- One reconciliation-deactivate step leaves the rows of every other id
untouched. -/
lemma initDeactivateStep_frame (config_ids : List Nat) (now : Int) (db : DBState)
    (t : ThreadRow) (x : Nat) (hx : x ≠ t.thread_id) :
    rowsFor x (initDeactivateStep config_ids now db t).threads = rowsFor x db.threads := by
  unfold initDeactivateStep
  by_cases hcond : ¬ config_ids.contains t.thread_id = true ∧ t.is_active = true
  · rw [if_pos hcond]
    unfold deactivate_thread
    exact condMap_rowsFor_ne db.threads t.thread_id
      (fun r => { r with is_active := false, updated_at := now }) (fun q => rfl) x hx
  · rw [if_neg hcond]

/-- After the reconciliation-deactivate fold over a duplicate-free
snapshot, every row of every id outside the configured set is inactive,
provided the starting table agrees with the snapshot on that id. -/
lemma foldB_inactive (config_ids : List Nat) (now : Int) :
    ∀ (rows : List ThreadRow) (db : DBState) (x : Nat),
    (rows.map (·.thread_id)).Nodup →
    ¬ config_ids.contains x = true →
    rowsFor x db.threads = rowsFor x rows →
    ∀ r ∈ (rows.foldl (initDeactivateStep config_ids now) db).threads,
      r.thread_id = x → r.is_active = false
  | [], db, x, _, _, hrows => by
      intro r hr hrx
      exfalso
      have hm : r ∈ rowsFor x db.threads := List.mem_filter.mpr ⟨hr, by simp [hrx]⟩
      rw [hrows] at hm
      exact absurd hm (List.not_mem_nil r)
  | t :: rest, db, x, hnd, hx, hrows => by
      have hnd0 : (∀ a ∈ rest, ¬ a.thread_id = t.thread_id)
          ∧ (rest.map (·.thread_id)).Nodup := by simpa using hnd
      have hnd1 : t.thread_id ∉ rest.map (·.thread_id) := by
        intro hmem
        obtain ⟨a, ha, haid⟩ := List.mem_map.mp hmem
        exact hnd0.1 a ha haid
      have hnd2 : (rest.map (·.thread_id)).Nodup := hnd0.2
      rw [List.foldl_cons]
      by_cases hxt : t.thread_id = x
      · have hxrest : rowsFor x rest = [] := by
          rw [rowsFor, List.filter_eq_nil_iff]
          intro a ha
          have : a.thread_id ≠ x := by
            intro hh
            exact hnd1 (by rw [hxt, ← hh]; exact List.mem_map_of_mem (·.thread_id) ha)
          simpa using this
        have hdbx : rowsFor x db.threads = [t] := by
          rw [hrows, rowsFor, List.filter_cons]
          simp [hxt, rowsFor] at hxrest ⊢
          exact hxrest
        have hstep : ∀ r ∈ (initDeactivateStep config_ids now db t).threads,
            r.thread_id = x → r.is_active = false := by
          unfold initDeactivateStep
          by_cases ha : t.is_active = true
          · have hcond : ¬ config_ids.contains t.thread_id = true ∧ t.is_active = true :=
              ⟨by rw [hxt]; exact hx, ha⟩
            rw [if_pos hcond]
            intro r hr hrx
            unfold deactivate_thread at hr
            obtain ⟨q, _, _, hrq⟩ := mem_condMap hr (by rw [hrx, ← hxt])
            rw [hrq]
          · have hcond : ¬ (¬ config_ids.contains t.thread_id = true ∧ t.is_active = true) :=
              fun hh => ha hh.2
            rw [if_neg hcond]
            intro r hr hrx
            have hm : r ∈ rowsFor x db.threads := List.mem_filter.mpr ⟨hr, by simp [hrx]⟩
            rw [hdbx] at hm
            rw [List.mem_singleton.mp hm]
            simpa using ha
        exact foldB_allInact config_ids now rest _ x hstep
      · have hxframe : rowsFor x (initDeactivateStep config_ids now db t).threads
            = rowsFor x db.threads :=
          initDeactivateStep_frame config_ids now db t x (fun hh => hxt hh.symm)
        have hrows' : rowsFor x (initDeactivateStep config_ids now db t).threads
            = rowsFor x rest := by
          rw [hxframe, hrows, rowsFor, rowsFor, List.filter_cons]
          simp [hxt]
        exact foldB_inactive config_ids now rest _ x hnd2 hx hrows'

/-- Claim C8: reconciliation is idempotent — with a duplicate-free store
and configured set and identical remote responses, a second
`initialize_threads` run leaves the store exactly as the first run did
(the second run performs no write at all, so rows, activity flags,
schedules and counters are unchanged). -/
theorem initialize_threads_idempotent (config_ids : List Nat)
    (remote : Nat → Option RemoteInfo) (now1 now2 : Int) (db : DBState)
    (hdb : (db.threads.map (·.thread_id)).Nodup)
    (hcfg : config_ids.Nodup) :
    initialize_threads config_ids remote now2 (initialize_threads config_ids remote now1 db)
      = initialize_threads config_ids remote now1 db := by
  obtain ⟨db1, hdb1⟩ : ∃ x, initialize_threads config_ids remote now1 db = x := ⟨_, rfl⟩
  have hsplit : db.threads.foldl (initDeactivateStep config_ids now1)
      (config_ids.foldl (initConfigStep remote now1 db.threads) db) = db1 := hdb1
  rw [hdb1]
  have hAids := foldA_ids remote now1 db.threads config_ids db (fun y hy => hy)
  have F1 : ∀ tid ∈ config_ids, tid ∈ db1.threads.map (·.thread_id) := by
    intro tid htid
    rw [← hsplit, foldB_ids config_ids now1 db.threads _]
    exact hAids.2 tid htid
  have F2 : ∀ tid ∈ config_ids, ∀ r ∈ db1.threads, r.thread_id = tid
      → r.is_active = true := by
    intro tid htid
    have hact := foldA_active remote now1 db.threads hdb config_ids db hcfg
      (fun x _ => rfl) tid htid
    rw [← hsplit]
    exact foldB_noInact config_ids now1 db.threads _ tid (contains_of_mem htid) hact
  have F3 : ∀ r ∈ db1.threads, ¬ config_ids.contains r.thread_id = true
      → r.is_active = false := by
    intro r hr hc
    have hne : ∀ c ∈ config_ids, c ≠ r.thread_id := by
      intro c hcm hh
      exact hc (contains_of_mem (hh ▸ hcm))
    have hframe := foldA_frame remote now1 db.threads config_ids db r.thread_id hne
    refine foldB_inactive config_ids now1 db.threads _ r.thread_id hdb hc hframe r ?_ rfl
    rw [hsplit]
    exact hr
  have hA : config_ids.foldl (initConfigStep remote now2 db1.threads) db1 = db1 := by
    apply foldl_fixed
    intro tid htid
    have hmem := F1 tid htid
    have hfs : (db1.threads.find? (fun t => t.thread_id = tid)).isSome := by
      rw [List.find?_isSome]
      obtain ⟨t0, ht0, ht0id⟩ := List.mem_map.mp hmem
      exact ⟨t0, ht0, by simpa using ht0id⟩
    obtain ⟨t, hfind⟩ := Option.isSome_iff_exists.mp hfs
    have htid2 : t.thread_id = tid := by simpa using List.find?_some hfind
    have hact : t.is_active = true :=
      F2 tid htid t (List.mem_of_find?_eq_some hfind) htid2
    have hcont : (db1.threads.map (·.thread_id)).contains tid = true := contains_of_mem hmem
    unfold initConfigStep
    rw [if_pos hcont, hfind]
    dsimp only
    rw [if_pos hact]
  have hB : db1.threads.foldl (initDeactivateStep config_ids now2) db1 = db1 := by
    apply foldl_fixed
    intro t ht
    unfold initDeactivateStep
    by_cases hc : config_ids.contains t.thread_id = true
    · rw [if_neg (fun hh => hh.1 hc)]
    · have hinact : t.is_active = false := F3 t ht hc
      rw [if_neg (fun hh => by rw [hinact] at hh; exact Bool.false_ne_true hh.2)]
  calc initialize_threads config_ids remote now2 db1
      = db1.threads.foldl (initDeactivateStep config_ids now2)
          (config_ids.foldl (initConfigStep remote now2 db1.threads) db1) := rfl
    _ = db1.threads.foldl (initDeactivateStep config_ids now2) db1 := by rw [hA]
    _ = db1 := hB

/-- Witness for C8: reconciling twice over a store holding an inactive
configured thread 1 and an active unconfigured thread 3. -/
theorem initialize_threads_idempotent_witness :
    initialize_threads [1, 2] (fun _ => none) 20
        (initialize_threads [1, 2] (fun _ => none) 10
          ⟨[⟨3, none, 0, 0, 0, none, 2, true, 0, 0⟩,
            ⟨1, none, 0, 0, 0, none, 0, false, 0, 0⟩], []⟩)
      = initialize_threads [1, 2] (fun _ => none) 10
          ⟨[⟨3, none, 0, 0, 0, none, 2, true, 0, 0⟩,
            ⟨1, none, 0, 0, 0, none, 0, false, 0, 0⟩], []⟩ :=
  initialize_threads_idempotent [1, 2] (fun _ => none) 10 20
    ⟨[⟨3, none, 0, 0, 0, none, 2, true, 0, 0⟩,
      ⟨1, none, 0, 0, 0, none, 0, false, 0, 0⟩], []⟩ (by decide) (by decide)

end LolzBumper
